import Mathlib

/-!
Verification development for a Solana trade-ingestion and copy-trading engine.

The definitions below are shallow embeddings of the TypeScript sources:
byte buffers become `List Byte` (`Byte := Fin 256`, matching `Uint8Array`
semantics where every stored element is an 8-bit value), JavaScript `number`
becomes `ℚ` (the float values appearing in the claims are small and exact),
`bigint` becomes `Int`, JavaScript `Map` (insertion-ordered, reference
semantics) becomes an association list `List (String × α)` with in-place
replacement on `set`, and fallible operations return `Option` / `Except`.
External I/O (RPC results, HTTP fetch outcomes, the current time) is passed
in as explicit parameters.
-/

set_option autoImplicit false

abbrev Byte := Fin 256

/-- Reads a byte of a `Uint8Array`; an out-of-range JavaScript read yields
`undefined`, which the bitwise operators of `readU32` coerce to 0, so the
default is 0. -/
def byteAt (buffer : List Byte) (i : Nat) : Nat :=
  (buffer.getD i 0).val

/-- Embeds `readU32` from `src/binary.ts`: little-endian u32 assembled with
bitwise ors of shifted bytes. -/
def readU32 (buffer : List Byte) (offset : Nat) : Nat :=
  byteAt buffer offset
    + byteAt buffer (offset + 1) * 2 ^ 8
    + byteAt buffer (offset + 2) * 2 ^ 16
    + byteAt buffer (offset + 3) * 2 ^ 24

/-- Embeds `readU64` from `src/binary.ts`: two little-endian u32 halves. -/
def readU64 (buffer : List Byte) (offset : Nat) : Nat :=
  readU32 buffer offset + readU32 buffer (offset + 4) * 2 ^ 32

/-- Embeds `readCompactU16` from `src/binary.ts`: Solana's compact-u16
variable-length encoding, returning `(value, bytesConsumed)`; every byte
access is preceded by a bounds check and an out-of-bounds position yields
`(0, 0)`, exactly as in the source. -/
def readCompactU16 (buffer : List Byte) (offset : Nat) : Nat × Nat :=
  if offset ≥ buffer.length then (0, 0)
  else
    let byte1 := byteAt buffer offset
    if byte1 < 0x80 then (byte1, 1)
    else if offset + 1 ≥ buffer.length then (0, 0)
    else
      let byte2 := byteAt buffer (offset + 1)
      if byte2 < 0x80 then (byte1 % 0x80 + byte2 * 2 ^ 7, 2)
      else if offset + 2 ≥ buffer.length then (0, 0)
      else
        let byte3 := byteAt buffer (offset + 2)
        (byte1 % 0x80 + byte2 % 0x80 * 2 ^ 7 + byte3 * 2 ^ 14, 3)

/-- Embeds the per-instruction loop of `measureTransactionSize`
(`src/utils/solana-tx.ts`); the same loop body is used by the versioned and
the legacy branch. `none` models the early `return 0` taken when the loop
observes `offset >= buffer.length`. -/
def measureInstructions (buffer : List Byte) : Nat → Nat → Option Nat
  | 0, offset => some offset
  | n + 1, offset =>
    if offset ≥ buffer.length then none
    else
      let offset1 := offset + 1
      let acc := readCompactU16 buffer offset1
      let offset2 := offset1 + acc.2 + acc.1
      let dat := readCompactU16 buffer offset2
      measureInstructions buffer n (offset2 + dat.2 + dat.1)

/-- Embeds the address-table-lookup loop of `measureTransactionSize`
(`src/utils/solana-tx.ts`, versioned branch); `none` models the early
`return 0` on the 32-byte account-key bounds check. -/
def measureLookups (buffer : List Byte) : Nat → Nat → Option Nat
  | 0, offset => some offset
  | n + 1, offset =>
    if offset + 32 > buffer.length then none
    else
      let offset1 := offset + 32
      let w := readCompactU16 buffer offset1
      let offset2 := offset1 + w.2 + w.1
      let r := readCompactU16 buffer offset2
      measureLookups buffer n (offset2 + r.2 + r.1)

/-- Embeds `measureTransactionSize` from `src/utils/solana-tx.ts`: walks a
transaction in Solana wire format (signature count, signatures, then a
versioned (0x80) or legacy message) and returns the measured byte length,
or 0 when one of the source's bounds checks fires. -/
def measureTransactionSize (buffer : List Byte) : Nat :=
  let sigs := readCompactU16 buffer 0
  let numSigs := sigs.1
  if numSigs = 0 ∨ numSigs > 64 then 0
  else
    let offset := sigs.2 + numSigs * 64
    if offset ≥ buffer.length then 0
    else
      let firstByte := byteAt buffer offset
      if firstByte = 0x80 then
        -- versioned transaction (v0)
        let offsetV := offset + 1
        if offsetV + 3 > buffer.length then 0
        else
          let offsetH := offsetV + 3
          let keys := readCompactU16 buffer offsetH
          let offsetK := offsetH + keys.2 + keys.1 * 32
          if offsetK + 32 > buffer.length then 0
          else
            let offsetB := offsetK + 32
            let instrs := readCompactU16 buffer offsetB
            match measureInstructions buffer instrs.1 (offsetB + instrs.2) with
            | none => 0
            | some offsetI =>
              let lookups := readCompactU16 buffer offsetI
              match measureLookups buffer lookups.1 (offsetI + lookups.2) with
              | none => 0
              | some offsetL => offsetL
      else
        -- legacy transaction
        if offset + 3 > buffer.length then 0
        else
          let offsetH := offset + 3
          let keys := readCompactU16 buffer offsetH
          let offsetK := offsetH + keys.2 + keys.1 * 32
          if offsetK + 32 > buffer.length then 0
          else
            let offsetB := offsetK + 32
            let instrs := readCompactU16 buffer offsetB
            match measureInstructions buffer instrs.1 (offsetB + instrs.2) with
            | none => 0
            | some offsetI => offsetI

/-- Embeds `SolanaEntry` from `src/utils/entries.ts`. -/
structure SolanaEntry where
  numHashes : Nat
  hash : List Byte
  transactions : List (List Byte)
deriving Repr, DecidableEq

/-- Embeds the transaction-scanning loop of `deserializeEntries`
(`src/utils/entries.ts`): measures each transaction in place and slices it
out; a zero measurement or an offset at/past the end breaks the loop.
Returns the scanned transactions together with the offset after them.
JavaScript `slice(offset, offset + txSize)` clamps, hence `drop`/`take`. -/
def scanTransactions (entriesBytes : List Byte) : Nat → Nat → List (List Byte) × Nat
  | 0, offset => ([], offset)
  | t + 1, offset =>
    if offset ≥ entriesBytes.length then ([], offset)
    else
      let remaining := entriesBytes.drop offset
      let txSize := measureTransactionSize remaining
      if txSize = 0 then ([], offset)
      else
        let txBytes := (entriesBytes.drop offset).take txSize
        let rest := scanTransactions entriesBytes t (offset + txSize)
        (txBytes :: rest.1, rest.2)

/-- Embeds the entry loop of `deserializeEntries` (`src/utils/entries.ts`):
reads `num_hashes` (u64), the 32-byte hash, the transaction count (u64,
with the source's only bounds check, whose failure throws), then scans the
transactions. -/
def readEntries (entriesBytes : List Byte) : Nat → Nat → Except String (List SolanaEntry)
  | 0, _ => .ok []
  | i + 1, offset =>
    let numHashes := readU64 entriesBytes offset
    let offsetH := offset + 8
    let hash := (entriesBytes.drop offsetH).take 32
    let offsetC := offsetH + 32
    if offsetC + 8 > entriesBytes.length then
      .error "Cannot read transaction Vec length"
    else
      let txCount := readU64 entriesBytes offsetC
      let offsetT := offsetC + 8
      let scanned :=
        if txCount > 0 then scanTransactions entriesBytes txCount offsetT
        else ([], offsetT)
      match readEntries entriesBytes i scanned.2 with
      | .error e => .error e
      | .ok rest => .ok ({ numHashes := numHashes, hash := hash, transactions := scanned.1 } :: rest)

/-- Embeds `deserializeEntries` from `src/utils/entries.ts`: bincode
`Vec<Entry>` with a little-endian u64 length prefix. -/
def deserializeEntries (entriesBytes : List Byte) : Except String (List SolanaEntry) :=
  let length := readU64 entriesBytes 0
  readEntries entriesBytes length 8

/-! ## Insertion-ordered map (JavaScript `Map`) over string keys -/

/-- Embeds `Map.get`: the value stored at the key, if present. -/
def mapLookup {α : Type} (m : List (String × α)) (k : String) : Option α :=
  match m with
  | [] => none
  | (k', v) :: rest => if k' = k then some v else mapLookup rest k

/-- Embeds `Map.set`: replaces the value in place when the key is present,
otherwise appends the new binding (JavaScript insertion order). -/
def mapInsert {α : Type} (m : List (String × α)) (k : String) (v : α) : List (String × α) :=
  match m with
  | [] => [(k, v)]
  | (k', v') :: rest => if k' = k then (k, v) :: rest else (k', v') :: mapInsert rest k v

/-- Embeds `Map.delete`: removes every binding of the key (maps built by
`mapInsert` hold it at most once). -/
def mapErase {α : Type} (m : List (String × α)) (k : String) : List (String × α) :=
  m.filter (fun p => ¬ p.1 = k)

/-! ## Position ledger (`PositionManager`, `src/services/position-manager.ts`)

The `symbol` and `entryTime` fields of `Position` (display text and the
wall-clock entry timestamp) are not involved in any verified claim and are
omitted; everything else follows the source record for record. -/

/-- Embeds `Position`: `amount` is the bigint raw token amount,
`entryPrice` / `totalCostUsdc` are JavaScript numbers. -/
structure Position where
  tokenMint : String
  amount : Int
  entryPrice : ℚ
  totalCostUsdc : ℚ
  trades : List String
  buyCount : Nat
  sellCount : Nat
deriving Repr, DecidableEq

/-- Embeds `RiskLimits`. -/
structure RiskLimits where
  maxPositionSizeUsdc : ℚ
  maxTotalExposureUsdc : ℚ
  maxOpenPositions : Nat
  minUsdcReserve : ℚ
deriving Repr, DecidableEq

/-- Trade direction, the `'buy' | 'sell'` union of the source. -/
inductive Direction
  | buy
  | sell
deriving Repr, DecidableEq

/-- Categorical forms of the rejection-reason strings built in
`PositionManager.canTrade`, in source order. -/
inductive RejectReason
  | belowReserve
  | positionSizeLimit
  | totalExposureLimit
  | maxPositionsReached
  | noPositionToSell
deriving Repr, DecidableEq

/-- Embeds `TradeCheckResult` (the `limits` payload attached to some
rejections does not affect the decision and is omitted). -/
structure TradeCheckResult where
  allowed : Bool
  reason : Option RejectReason
deriving Repr, DecidableEq

/-- Embeds `PositionManager.getTotalExposure`: sum of all position costs. -/
def getTotalExposure (positions : List (String × Position)) : ℚ :=
  (positions.map (fun p => p.2.totalCostUsdc)).sum

/-- Embeds `PositionManager.canTrade`. The buy checks run in source order:
USDC reserve, per-position size, total exposure, max open positions (the
80 % limit warnings emitted between check 4 and the final return do not
change the result and are omitted). The sell check rejects when there is no
position or its amount is zero. -/
def canTrade (positions : List (String × Position)) (limits : RiskLimits)
    (tokenMint : String) (direction : Direction)
    (amountUsdc currentUsdcBalance : ℚ) : TradeCheckResult :=
  let position := mapLookup positions tokenMint
  let totalExposure := getTotalExposure positions
  match direction with
  | .buy =>
    if currentUsdcBalance - amountUsdc < limits.minUsdcReserve then
      ⟨false, some .belowReserve⟩
    else
      let currentPositionSize := match position with
        | some p => p.totalCostUsdc
        | none => 0
      let newPositionSize := currentPositionSize + amountUsdc
      if newPositionSize > limits.maxPositionSizeUsdc then
        ⟨false, some .positionSizeLimit⟩
      else
        let newTotalExposure := totalExposure + amountUsdc
        if newTotalExposure > limits.maxTotalExposureUsdc then
          ⟨false, some .totalExposureLimit⟩
        else if position = none ∧ positions.length ≥ limits.maxOpenPositions then
          ⟨false, some .maxPositionsReached⟩
        else
          ⟨true, none⟩
  | .sell =>
    match position with
    | none => ⟨false, some .noPositionToSell⟩
    | some p => if p.amount = 0 then ⟨false, some .noPositionToSell⟩ else ⟨true, none⟩

/-- Embeds `PositionManager.recordBuy`. On an existing position the average
entry price is recomputed as `newCost / Number(newAmount)` — the raw
smallest-unit amount; on a new position the caller-supplied `pricePerToken`
is stored. Returns the updated ledger. -/
def recordBuy (positions : List (String × Position)) (tokenMint : String)
    (tokenAmount : Int) (usdcSpent pricePerToken : ℚ) (signature : String) :
    List (String × Position) :=
  match mapLookup positions tokenMint with
  | some existing =>
    let newAmount := existing.amount + tokenAmount
    let newCost := existing.totalCostUsdc + usdcSpent
    mapInsert positions tokenMint
      { existing with
        amount := newAmount
        totalCostUsdc := newCost
        entryPrice := newCost / (newAmount : ℚ)
        trades := existing.trades ++ [signature]
        buyCount := existing.buyCount + 1 }
  | none =>
    mapInsert positions tokenMint
      { tokenMint := tokenMint
        amount := tokenAmount
        entryPrice := pricePerToken
        totalCostUsdc := usdcSpent
        trades := [signature]
        buyCount := 1
        sellCount := 0 }

/-- Outcome events of `PositionManager.recordSell`. -/
inductive PositionEvent
  | positionClosed
  | positionUpdated
deriving Repr, DecidableEq

/-- Embeds the `{ realizedPnlUsdc, realizedPnlPercent }` return value of
`PositionManager.recordSell`. -/
structure SellResult where
  realizedPnlUsdc : ℚ
  realizedPnlPercent : ℚ
deriving Repr, DecidableEq

/-- Embeds `PositionManager.recordSell`: computes the sold fraction
`Number(tokenAmount) / Number(position.amount)`, the proportional cost
basis, and the realized P&L; removes the position and emits
`position_closed` when the remaining amount reaches zero, otherwise stores
the reduced position and emits `position_updated`. `none` covers the two
early `return null` paths (no position; sell amount exceeds position). -/
def recordSell (positions : List (String × Position)) (tokenMint : String)
    (tokenAmount : Int) (usdcReceived : ℚ) (signature : String) :
    List (String × Position) × Option (SellResult × PositionEvent) :=
  match mapLookup positions tokenMint with
  | none => (positions, none)
  | some position =>
    let newAmount := position.amount - tokenAmount
    if newAmount < 0 then (positions, none)
    else
      let sellPercent : ℚ := (tokenAmount : ℚ) / (position.amount : ℚ)
      let costBasis := position.totalCostUsdc * sellPercent
      let realizedPnlUsdc := usdcReceived - costBasis
      let realizedPnlPercent := realizedPnlUsdc / costBasis * 100
      let updated :=
        { position with
          amount := newAmount
          totalCostUsdc := position.totalCostUsdc * (1 - sellPercent)
          trades := position.trades ++ [signature]
          sellCount := position.sellCount + 1 }
      if newAmount = 0 then
        (mapErase positions tokenMint, some (⟨realizedPnlUsdc, realizedPnlPercent⟩, .positionClosed))
      else
        (mapInsert positions tokenMint updated, some (⟨realizedPnlUsdc, realizedPnlPercent⟩, .positionUpdated))

/-- Embeds the per-token price computed in `CopyTradeEngine.processTrade`
(`src/services/copy-trade-engine.ts`): `usdcAmount / Number(tokenAmount)`,
where `tokenAmount` is the quote's raw out-amount. -/
def copyTradePricePerToken (usdcAmount : ℚ) (tokenAmount : Int) : ℚ :=
  usdcAmount / (tokenAmount : ℚ)

/-- Modelled from the spec: the required average entry price
`total_cost_usdc / (amount_raw / 10^decimals)` in UI units, using the
token's decimals. This definition follows the specification's words and is
the comparison target for the stored `entryPrice`. -/
def specAvgEntryPrice (totalCostUsdc : ℚ) (amountRaw : Int) (decimals : Nat) : ℚ :=
  totalCostUsdc / ((amountRaw : ℚ) / 10 ^ decimals)

/-! ## Quality filter (`TradeFilter`, `src/services/trade-filter.ts`)

The metadata fetch is a network call; its outcome is passed in as
`fetchResult : Option DexScreenerData`, where `none` models a failed fetch
(rejected promise / non-ok response / token not found). The current time is
the explicit `now` parameter. -/

/-- Embeds `FilterConfig`. -/
structure FilterConfig where
  enabled : Bool
  minLiquidityUsdc : ℚ
  maxPriceImpactPercent : ℚ
  minTokenAgeSeconds : ℚ
  min24hVolumeUsdc : ℚ
  maxRecentPumpPercent : ℚ
  whitelist : List String
deriving Repr, DecidableEq

/-- Embeds the `{ liquidity, volume24h, tokenAge, price }` record returned
by `TradeFilter.fetchDexScreenerData`. -/
structure DexScreenerData where
  liquidity : ℚ
  volume24h : ℚ
  tokenAge : ℚ
  price : ℚ
deriving Repr, DecidableEq

/-- Embeds `TokenMetadata` (the cache entry; `lastPriceCheck` only feeds
logging-free bookkeeping and is omitted). `priceHistory` entries are
`(price, timestamp)` pairs. -/
structure TokenMetadata where
  mint : String
  liquidity : ℚ
  volume24h : ℚ
  tokenAge : ℚ
  priceHistory : List (ℚ × ℚ)
  lastUpdated : ℚ
deriving Repr, DecidableEq

/-- Categorical forms of the reason strings of `TradeFilter` results. -/
inductive FilterReason
  | whitelisted
  | lowLiquidity
  | tokenTooNew
  | lowVolume
  | highPriceImpact
  | alreadyPumped
  | filterError
deriving Repr, DecidableEq

/-- Embeds `FilterResult` (the `checks` detail payload does not affect the
decision and is omitted). -/
structure FilterDecision where
  allowed : Bool
  reason : Option FilterReason
deriving Repr, DecidableEq

/-- Embeds `TradeFilter.fetchDexScreenerData`: the entire body is wrapped
in a `try`/`catch` whose handler returns zeroed defaults, so a failed fetch
produces `{ liquidity: 0, volume24h: 0, tokenAge: 0, price: 0 }` instead of
propagating an error. -/
def fetchDexScreenerData (fetchResult : Option DexScreenerData) : DexScreenerData :=
  match fetchResult with
  | some dexData => dexData
  | none => ⟨0, 0, 0, 0⟩

/-- Embeds `TradeFilter.fetchTokenMetadata`: builds a fresh cache entry
from the DexScreener data at time `now`. -/
def fetchTokenMetadata (now : ℚ) (fetchResult : Option DexScreenerData)
    (tokenMint : String) : TokenMetadata :=
  let dexData := fetchDexScreenerData fetchResult
  { mint := tokenMint
    liquidity := dexData.liquidity
    volume24h := dexData.volume24h
    tokenAge := dexData.tokenAge
    priceHistory := [(dexData.price, now)]
    lastUpdated := now }

/-- Embeds `TradeFilter.getTokenMetadata`: returns the cached entry when it
is younger than the 60 s TTL, otherwise fetches and stores a fresh entry.
Returns the metadata together with the updated cache. -/
def getTokenMetadata (metadataCache : List (String × TokenMetadata)) (now : ℚ)
    (fetchResult : Option DexScreenerData) (tokenMint : String) :
    TokenMetadata × List (String × TokenMetadata) :=
  match mapLookup metadataCache tokenMint with
  | some cached =>
    if now - cached.lastUpdated < 60000 then (cached, metadataCache)
    else
      let metadata := fetchTokenMetadata now fetchResult tokenMint
      (metadata, mapInsert metadataCache tokenMint metadata)
  | none =>
    let metadata := fetchTokenMetadata now fetchResult tokenMint
    (metadata, mapInsert metadataCache tokenMint metadata)

/-- Embeds `TradeFilter.estimatePriceImpact`: `(amount / liquidity) * 100`
capped at 100, over the cached metadata; 0 when unknown or zero
liquidity. -/
def estimatePriceImpact (metadataCache : List (String × TokenMetadata))
    (tokenMint : String) (amountUsdc : ℚ) : ℚ :=
  match mapLookup metadataCache tokenMint with
  | none => 0
  | some metadata =>
    if metadata.liquidity = 0 then 0
    else min (amountUsdc / metadata.liquidity * 100) 100

/-- Embeds `TradeFilter.detectRecentPump`: price history restricted to the
last 300 s; with at least two samples and a nonzero oldest price, the pump
percentage `(newest/oldest - 1) * 100` floored at 0. -/
def detectRecentPump (now : ℚ) (metadata : TokenMetadata) : ℚ :=
  let recentPrices := metadata.priceHistory.filter (fun p => p.2 ≥ now - 300000)
  if recentPrices.length < 2 then 0
  else
    let oldestPrice := (recentPrices.headD (0, 0)).1
    let newestPrice := (recentPrices.getLastD (0, 0)).1
    if oldestPrice = 0 then 0
    else max ((newestPrice / oldestPrice - 1) * 100) 0

/-- Embeds `TradeFilter.shouldCopyTrade`: disabled-filter and whitelist
bypasses, then the five checks in source order over the (possibly freshly
fetched) metadata. The source's surrounding `try`/`catch` returns
`{ allowed: true, reason: 'filter_error' }`, but no statement inside the
`try` block throws in this model — `fetchDexScreenerData` catches its own
failures — so the embedding has no reachable `filterError` outcome, exactly
as in the source for metadata-fetch failures. -/
def shouldCopyTrade (config : FilterConfig)
    (metadataCache : List (String × TokenMetadata)) (now : ℚ)
    (fetchResult : Option DexScreenerData)
    (tokenMint : String) (tradeAmountUsdc : ℚ) : FilterDecision :=
  if config.enabled = false then ⟨true, none⟩
  else if tokenMint ∈ config.whitelist then ⟨true, some .whitelisted⟩
  else
    let fetched := getTokenMetadata metadataCache now fetchResult tokenMint
    let metadata := fetched.1
    let cacheAfter := fetched.2
    if metadata.liquidity < config.minLiquidityUsdc then ⟨false, some .lowLiquidity⟩
    else if metadata.tokenAge < config.minTokenAgeSeconds then ⟨false, some .tokenTooNew⟩
    else if metadata.volume24h < config.min24hVolumeUsdc then ⟨false, some .lowVolume⟩
    else
      let priceImpact := estimatePriceImpact cacheAfter tokenMint tradeAmountUsdc
      if priceImpact > config.maxPriceImpactPercent then ⟨false, some .highPriceImpact⟩
      else
        let recentPump := detectRecentPump now metadata
        if recentPump > config.maxRecentPumpPercent then ⟨false, some .alreadyPumped⟩
        else ⟨true, none⟩

/-! ## Pre-built transaction cache consumption (`JupiterExecutor.buyToken`,
`src/services/jupiter-executor.ts`)

The fast path of `buyToken` runs on the single-threaded JavaScript event
loop: code between `await` suspension points executes atomically. The path
is, in order: (1) `txCache.get(tokenMint)` and the expiry test, then the
`await this.sendPreBuiltTransaction(cached)` suspension — no cache
mutation before the suspension; (2) after the send resolves,
`txCache.delete(tokenMint)` and the return of the cached entry. The model
below replays two concurrent `buyToken` calls for the same mint as an
explicit interleaving of these two atomic phases over the single cache
slot of that mint. -/

/-- Embeds the `PreBuiltTransaction` cache entry (the signed transaction
body, quote snapshot, and blockhash ride along and are irrelevant to the
take semantics). -/
structure PreBuiltTransaction where
  signature : String
  createdAt : Nat
  expiresAt : Nat
deriving Repr, DecidableEq

/-- Phase of one `buyToken` call on the event loop: not yet scheduled;
suspended in `await sendPreBuiltTransaction` holding the entry it read; or
finished with the pre-built entry it consumed (`none` = fell through to the
on-demand build path). -/
inductive CallerPhase
  | start
  | sending (got : PreBuiltTransaction)
  | done (result : Option PreBuiltTransaction)
deriving Repr, DecidableEq

/-- One atomic event-loop step of a `buyToken` call for the mint whose
cache slot is `cache`, at time `now`. Phase `start` performs
`txCache.get` + the `Date.now() < expiresAt` test and suspends in the send
(`sending`) without touching the cache; phase `sending` resumes after the
awaited send, performs `txCache.delete`, and finishes. -/
def buyTokenStep (now : Nat) (cache : Option PreBuiltTransaction)
    (phase : CallerPhase) : Option PreBuiltTransaction × CallerPhase :=
  match phase with
  | .start =>
    match cache with
    | some cached =>
      if now < cached.expiresAt then (cache, .sending cached)
      else (cache, .done none)
    | none => (cache, .done none)
  | .sending got => (none, .done (some got))
  | .done r => (cache, .done r)

/-- Joint state of the cache slot and two concurrent `buyToken` callers. -/
structure RaceState where
  txCache : Option PreBuiltTransaction
  callerA : CallerPhase
  callerB : CallerPhase
deriving Repr, DecidableEq

/-- Scheduler choice: which caller's next atomic phase runs. -/
inductive SchedChoice
  | stepA
  | stepB
deriving Repr, DecidableEq

/-- Runs a schedule of atomic phases of the two callers. -/
def runSchedule (now : Nat) (s : RaceState) : List SchedChoice → RaceState
  | [] => s
  | .stepA :: rest =>
    let step := buyTokenStep now s.txCache s.callerA
    runSchedule now { s with txCache := step.1, callerA := step.2 } rest
  | .stepB :: rest =>
    let step := buyTokenStep now s.txCache s.callerB
    runSchedule now { s with txCache := step.1, callerB := step.2 } rest

/-! ## Trade analyzer (`TradeAnalyzer`, `src/services/trade-analyzer.ts`)

RPC results (`getParsedTransaction`) and the outcome of lookup-table
resolution are external inputs and enter as explicit parameters. -/

/-- Embeds `USDC_MINT` from `src/types/trade.ts`. -/
def USDC_MINT : String := "EPjFWdd5AufqSSqeM2qN1xzybapC8G4wEGGkZwyTDt1v"

/-- Embeds `OKX_PROGRAM_ID` from `src/constants/aggregators.ts`. -/
def OKX_PROGRAM_ID : String := "6m2CDdhRgxpH4WjvdzxAYbGxwdGUz5MziiL5jek2kBma"

/-- Embeds `DFLOW_PROGRAM_ID` from `src/constants/aggregators.ts`. -/
def DFLOW_PROGRAM_ID : String := "DF1ow4tspfHX9JwWJsAb9epbkA8hmpSEAtxXy1V27QBH"

/-- Embeds `VOTE_PROGRAM_ID`; the file `src/constants/programs.ts` is not
among the provided sources, but the constant is the chain's fixed vote
program id and no verified claim depends on its exact value — only on its
membership test in `analyzeTransaction`. -/
def VOTE_PROGRAM_ID : String := "Vote111111111111111111111111111111111111111"

/-- Embeds `OKX_SWAP_DISCRIMINATORS` from `src/constants/aggregators.ts`
(12 eight-byte instruction prefixes). -/
def OKX_SWAP_DISCRIMINATORS : List (List Byte) :=
  [ [248, 198, 158, 145, 225, 117, 135, 200]
  , [19, 44, 130, 148, 72, 56, 44, 238]
  , [30, 33, 208, 91, 31, 157, 37, 18]
  , [81, 128, 134, 73, 114, 73, 45, 94]
  , [96, 67, 12, 151, 129, 164, 18, 71]
  , [235, 71, 211, 196, 114, 199, 143, 92]
  , [69, 200, 254, 247, 40, 52, 118, 202]
  , [69, 164, 210, 89, 146, 214, 173, 67]
  , [240, 224, 38, 33, 176, 31, 241, 175]
  , [14, 191, 44, 246, 142, 225, 224, 157]
  , [236, 71, 155, 68, 198, 98, 14, 118]
  , [63, 114, 246, 131, 51, 2, 247, 29] ]

/-- Embeds `DFLOW_SWAP_DISCRIMINATORS` from `src/constants/aggregators.ts`
(6 eight-byte instruction prefixes). -/
def DFLOW_SWAP_DISCRIMINATORS : List (List Byte) :=
  [ [248, 198, 158, 145, 225, 117, 135, 200]
  , [168, 172, 24, 77, 197, 156, 135, 101]
  , [205, 77, 127, 108, 241, 32, 196, 195]
  , [65, 75, 63, 76, 235, 91, 91, 136]
  , [95, 123, 213, 246, 122, 1, 86, 231]
  , [222, 100, 184, 146, 186, 196, 105, 165] ]

/-- Embeds the `ParsedInstruction` record of `trade-analyzer.ts`. -/
structure ParsedInstruction where
  programId : String
  accounts : List String
  data : List Byte
deriving Repr, DecidableEq

/-- Embeds a compiled instruction of a versioned message: indices into the
account-key vector plus raw data. -/
structure CompiledIx where
  programIdIndex : Nat
  accountKeyIndexes : List Nat
  data : List Byte
deriving Repr, DecidableEq

/-- The two transaction shapes distinguished by `getInstructions`: a
versioned message with compiled (index-based) instructions, or a legacy
transaction whose instructions already carry resolved program ids. -/
inductive TxInstructions
  | versioned (ixs : List CompiledIx)
  | legacy (ixs : List ParsedInstruction)
deriving Repr, DecidableEq

/-- Embeds the `DecodedTransaction` fields used by the analyzer. -/
structure DecodedTx where
  signature : String
  slot : Nat
  accountKeys : List String
  transaction : TxInstructions
deriving Repr, DecidableEq

/-- The `isVersioned` flag, set by `decodeTransaction` consistently with
the transaction shape. -/
def DecodedTx.isVersioned (tx : DecodedTx) : Bool :=
  match tx.transaction with
  | .versioned _ => true
  | .legacy _ => false

/-- Embeds `TradeAnalyzer.getInstructions`: versioned messages resolve
program ids and accounts through the supplied account-key vector (missing
indices yield the empty string); legacy instructions pass through. -/
def getInstructions (tx : TxInstructions) (accountKeys : List String) :
    List ParsedInstruction :=
  match tx with
  | .versioned ixs =>
    ixs.map (fun ix =>
      { programId := accountKeys.getD ix.programIdIndex ""
        accounts := ix.accountKeyIndexes.map (fun idx => accountKeys.getD idx "")
        data := ix.data })
  | .legacy ixs => ixs

/-- Embeds `TradeAnalyzer.matchesDiscriminator`: data shorter than 8 bytes
never matches; otherwise the first 8 data bytes must equal one of the
discriminators. -/
def matchesDiscriminator (data : List Byte) (discriminators : List (List Byte)) : Bool :=
  if data.length < 8 then false
  else discriminators.any (fun d => (List.range 8).all (fun i => data.getD i 0 == d.getD i 0))

/-- Embeds the `Aggregator` union `'okx' | 'dflow' | 'unknown'`. -/
inductive Aggregator
  | okx
  | dflow
  | unknown
deriving Repr, DecidableEq

/-- Embeds `TradeAnalyzer.identifyAggregatorFromInstructions`: first
instruction matching the OKX program id with an OKX swap discriminator
tags `okx`, the DFlow analogue tags `dflow`, else `unknown`. -/
def identifyAggregatorFromInstructions : List ParsedInstruction → Aggregator
  | [] => .unknown
  | ix :: rest =>
    if ix.programId = OKX_PROGRAM_ID ∧ ix.data.length ≥ 8
        ∧ matchesDiscriminator ix.data OKX_SWAP_DISCRIMINATORS then .okx
    else if ix.programId = DFLOW_PROGRAM_ID ∧ ix.data.length ≥ 8
        ∧ matchesDiscriminator ix.data DFLOW_SWAP_DISCRIMINATORS then .dflow
    else identifyAggregatorFromInstructions rest

/-- Embeds `TradeAnalyzer.findTrackedUserFromKeys`: first account key that
is in the tracked set. -/
def findTrackedUserFromKeys (accountKeys : List String) (trackedUsers : List String) :
    Option String :=
  accountKeys.find? (fun address => address ∈ trackedUsers)

/-- Embeds one entry of `preTokenBalances` / `postTokenBalances` as
returned by `getParsedTransaction`: `amount` is the non-negative raw
integer parsed from `uiTokenAmount.amount`. -/
structure TokenBalanceEntry where
  owner : String
  mint : String
  amount : Nat
  decimals : Nat
deriving Repr, DecidableEq

/-- Embeds the `meta` of a parsed transaction. -/
structure TxMeta where
  preTokenBalances : List TokenBalanceEntry
  postTokenBalances : List TokenBalanceEntry
deriving Repr, DecidableEq

/-- Digit extraction by repeated division, fuelled for structural
recursion (`n` itself bounds the number of digits). -/
def decDigitsAux : Nat → Nat → List Nat
  | 0, _ => []
  | fuel + 1, n => if n = 0 then [] else decDigitsAux fuel (n / 10) ++ [n % 10]

/-- Most-significant-digit-first decimal digits of `n`, matching
`BigInt.prototype.toString` (which renders 0 as "0"). -/
def decDigits (n : Nat) : List Nat :=
  if n = 0 then [0] else decDigitsAux n n

/-- Numeric value of a most-significant-digit-first digit list, as read
back from a decimal string. -/
def digitsToNat (ds : List Nat) : Nat :=
  ds.foldl (fun acc d => acc * 10 + d) 0

/-- Embeds the decimal-string construction in
`TradeAnalyzer.extractTokenBalanceDeltas`, as the exact rational value of
the string it builds: `absRawDeltaStr.padStart(decimals + 1, '0')`, then
`integerPart = padded.slice(0, -decimals) || '0'` and
`decimalPart = padded.slice(-decimals)`. JavaScript evaluates `-0` as `0`,
so for `decimals = 0` the integer part is the empty slice (replaced by
"0") and the decimal part is the whole padded string. -/
def uiDeltaValue (rawDelta : Int) (decimals : Nat) : ℚ :=
  let ds := decDigits rawDelta.natAbs
  let padded := List.replicate (decimals + 1 - ds.length) 0 ++ ds
  let integerPart :=
    if decimals = 0 then [0]
    else
      let ip := padded.take (padded.length - decimals)
      if ip = [] then [0] else ip
  let decimalPart :=
    if decimals = 0 then padded
    else padded.drop (padded.length - decimals)
  let magnitude : ℚ :=
    (digitsToNat integerPart : ℚ) + (digitsToNat decimalPart : ℚ) / 10 ^ decimalPart.length
  if rawDelta < 0 then -magnitude else magnitude

/-- Embeds one balance-delta row `{ mint, delta, deltaRaw, decimals }`. -/
structure BalanceDelta where
  mint : String
  delta : ℚ
  deltaRaw : Int
  decimals : Nat
deriving Repr, DecidableEq

/-- Embeds the pre-balance loop of `extractTokenBalanceDeltas`: for each
entry owned by the user, `balanceMap.set(mint, { -raw, decimals })`. -/
def applyPreBalances (userAddress : String) :
    List TokenBalanceEntry → List (String × (Int × Nat)) → List (String × (Int × Nat))
  | [], balanceMap => balanceMap
  | b :: rest, balanceMap =>
    if b.owner = userAddress then
      applyPreBalances userAddress rest (mapInsert balanceMap b.mint (-(b.amount : Int), b.decimals))
    else applyPreBalances userAddress rest balanceMap

/-- Embeds the post-balance loop of `extractTokenBalanceDeltas`: for each
entry owned by the user, add the raw amount to the current delta (default
0) and keep the post decimals unless they are the falsy 0. -/
def applyPostBalances (userAddress : String) :
    List TokenBalanceEntry → List (String × (Int × Nat)) → List (String × (Int × Nat))
  | [], balanceMap => balanceMap
  | b :: rest, balanceMap =>
    if b.owner = userAddress then
      let current := (mapLookup balanceMap b.mint).getD (0, b.decimals)
      let newDecimals := if b.decimals ≠ 0 then b.decimals else current.2
      applyPostBalances userAddress rest
        (mapInsert balanceMap b.mint (current.1 + (b.amount : Int), newDecimals))
    else applyPostBalances userAddress rest balanceMap

/-- Embeds `TradeAnalyzer.extractTokenBalanceDeltas`: per-mint raw deltas
(post minus pre) for the user, converted to UI deltas via the
decimal-string placement and filtered to `|delta| > 0.000001` (the float
literal modelled as the exact rational). -/
def extractTokenBalanceDeltas (meta : TxMeta) (userAddress : String) :
    List BalanceDelta :=
  let balanceMap := applyPostBalances userAddress meta.postTokenBalances
    (applyPreBalances userAddress meta.preTokenBalances [])
  (balanceMap.map (fun e =>
    { mint := e.1
      delta := uiDeltaValue e.2.1 e.2.2
      deltaRaw := e.2.1
      decimals := e.2.2 })).filter (fun x => |x.delta| > 1 / 1000000)

/-- Embeds `DetectedTrade` (`src/types/trade.ts`; `detectedAt` is a wall
clock stamp and is omitted). -/
structure DetectedTrade where
  signature : String
  slot : Nat
  direction : Direction
  tokenMint : String
  usdcAmount : ℚ
  tokenAmount : Int
  userAddress : String
  aggregator : Aggregator
deriving Repr, DecidableEq

/-- Embeds `TradeAnalyzer.parseTradeDetailsFromBalanceDeltas`: `rpcMeta` is
the `getParsedTransaction` result (`none` = transaction or meta missing).
Requires a USDC delta and a non-USDC delta; direction from the sign of the
USDC flow; amounts as absolute values. -/
def parseTradeDetailsFromBalanceDeltas (tx : DecodedTx) (aggregator : Aggregator)
    (userAddress : String) (rpcMeta : Option TxMeta) : Option DetectedTrade :=
  match rpcMeta with
  | none => none
  | some meta =>
    let deltas := extractTokenBalanceDeltas meta userAddress
    if deltas.length = 0 then none
    else
      let usdcDelta := deltas.find? (fun d => d.mint = USDC_MINT)
      let otherTokenDelta := deltas.find? (fun d => ¬ d.mint = USDC_MINT)
      match usdcDelta, otherTokenDelta with
      | some u, some o =>
        some
          { signature := tx.signature
            slot := tx.slot
            direction := if u.delta > 0 then .sell else .buy
            tokenMint := o.mint
            usdcAmount := |u.delta|
            tokenAmount := if o.deltaRaw < 0 then -o.deltaRaw else o.deltaRaw
            userAddress := userAddress
            aggregator := aggregator }
      | _, _ => none

/-- Embeds `TradeAnalyzer.parseTradeDetails`: picks the longer key vector,
identifies the aggregator from the instructions, and defers to the
balance-delta parser (no fallback trade is created). -/
def parseTradeDetails (tx : DecodedTx) (userAddress : String)
    (fullAccountKeys : List String) (rpcMeta : Option TxMeta) : Option DetectedTrade :=
  let keysToUse :=
    if fullAccountKeys.length > tx.accountKeys.length then fullAccountKeys
    else tx.accountKeys
  let instructions := getInstructions tx.transaction keysToUse
  let aggregator := identifyAggregatorFromInstructions instructions
  if aggregator = .unknown then none
  else parseTradeDetailsFromBalanceDeltas tx aggregator userAddress rpcMeta

/-- Embeds `TradeAnalyzer.analyzeTransaction`, whose emission of a
`TradeEvents.TRADE` event is the `some` result: vote transactions are
skipped; `resolvedKeys` is the outcome of `resolveAccountKeys` (used only
for versioned transactions); the transaction is dropped when no tracked
user is found *and the tracked set is non-empty*; otherwise the trade is
parsed with the found user or, failing that, the first static account
key. -/
def analyzeTransaction (trackedUsers : List String) (tx : DecodedTx)
    (resolvedKeys : List String) (rpcMeta : Option TxMeta) : Option DetectedTrade :=
  if VOTE_PROGRAM_ID ∈ tx.accountKeys then none
  else
    let fullAccountKeys := if tx.isVersioned then resolvedKeys else tx.accountKeys
    let userAddress := findTrackedUserFromKeys fullAccountKeys trackedUsers
    if userAddress = none ∧ trackedUsers.length > 0 then none
    else
      parseTradeDetails tx (userAddress.getD (tx.accountKeys.getD 0 ""))
        fullAccountKeys rpcMeta

/-! ## Exit manager (`ExitManager`, `src/services/exit-manager.ts`)

Prices come from the external price API and enter as explicit parameters.
The time-limit rule compares the wall clock with the position's entry time;
neither is involved in the verified claim and the rule is omitted, as is
the actual sell submission (`executeSell` emits events and calls the
executor but does not touch `exitStates` beyond what `checkTakeProfits`
records). -/

/-- Embeds one `takeProfitTargets` element of `ExitStrategy`. -/
structure TakeProfitTarget where
  profitPercent : ℚ
  sellPercent : ℚ
deriving Repr, DecidableEq

/-- Embeds `ExitStrategy` (without the time-limit field, see above). -/
structure ExitStrategy where
  takeProfitTargets : List TakeProfitTarget
  stopLossPercent : ℚ
  trailingStopPercent : Option ℚ
  trailingActivationPercent : Option ℚ
deriving Repr, DecidableEq

/-- Embeds `PositionExitState`: the set of take-profit levels already
executed (a JavaScript `Set`, kept as an append-ordered list) and the
highest price seen. -/
structure PositionExitState where
  tpHit : List ℚ
  highWaterMark : ℚ
deriving Repr, DecidableEq

/-- Embeds the body of the ladder loop in `ExitManager.checkTakeProfits`:
a target whose profit threshold is met and which is not yet in `tpHit`
triggers a sell (appended to the accumulator) and is added to `tpHit`. -/
def takeProfitStep (profitPercent : ℚ)
    (acc : PositionExitState × List TakeProfitTarget) (tp : TakeProfitTarget) :
    PositionExitState × List TakeProfitTarget :=
  if profitPercent ≥ tp.profitPercent ∧ ¬ tp.profitPercent ∈ acc.1.tpHit then
    ({ acc.1 with tpHit := acc.1.tpHit ++ [tp.profitPercent] }, acc.2 ++ [tp])
  else acc

/-- Embeds `ExitManager.checkTakeProfits`: walks the configured ladder in
order. Returns the updated state and the triggered targets in order. -/
def checkTakeProfits (strategy : ExitStrategy) (profitPercent : ℚ)
    (exitState : PositionExitState) : PositionExitState × List TakeProfitTarget :=
  strategy.takeProfitTargets.foldl (takeProfitStep profitPercent) (exitState, [])

/-- Embeds the trigger condition of `ExitManager.checkStopLoss`. -/
def checkStopLoss (strategy : ExitStrategy) (profitPercent : ℚ) : Bool :=
  decide (profitPercent ≤ strategy.stopLossPercent)

/-- Embeds the trigger condition of `ExitManager.checkTrailingStop`: both
trailing options must be set and non-zero (JavaScript truthiness), the
activation threshold must be reached, and the drawdown from the high-water
mark must reach the trailing percentage. -/
def checkTrailingStop (strategy : ExitStrategy) (currentPrice profitPercent : ℚ)
    (exitState : PositionExitState) : Bool :=
  match strategy.trailingStopPercent, strategy.trailingActivationPercent with
  | some trailingStop, some trailingActivation =>
    if trailingStop = 0 ∨ trailingActivation = 0 then false
    else if profitPercent < trailingActivation then false
    else
      let drawdownPercent :=
        (exitState.highWaterMark - currentPrice) / exitState.highWaterMark * 100
      decide (drawdownPercent ≥ trailingStop)
  | _, _ => false

/-- Result of one per-position iteration of
`ExitManager.checkAllPositions`. -/
structure CheckOutcome where
  exitStates : List (String × PositionExitState)
  tpTriggers : List TakeProfitTarget
  stopLossTriggered : Bool
  trailingTriggered : Bool
deriving Repr, DecidableEq

/-- Embeds one iteration of the position loop in
`ExitManager.checkAllPositions` for a position with a fetched non-zero
price: get-or-create the exit state (a fresh state starts with an empty
`tpHit` and the current price as high-water mark), raise the high-water
mark, compute the profit percentage from the stored entry price, then
evaluate the exit rules on the shared mutable state. -/
def checkPositionStep (strategy : ExitStrategy)
    (exitStates : List (String × PositionExitState))
    (position : Position) (currentPrice : ℚ) : CheckOutcome :=
  let exitState0 :=
    match mapLookup exitStates position.tokenMint with
    | some es => es
    | none => { tpHit := [], highWaterMark := currentPrice }
  let exitState1 :=
    if currentPrice > exitState0.highWaterMark then
      { exitState0 with highWaterMark := currentPrice }
    else exitState0
  let profitPercent := (currentPrice / position.entryPrice - 1) * 100
  let tpResult := checkTakeProfits strategy profitPercent exitState1
  { exitStates := mapInsert exitStates position.tokenMint tpResult.1
    tpTriggers := tpResult.2
    stopLossTriggered := checkStopLoss strategy profitPercent
    trailingTriggered := checkTrailingStop strategy currentPrice profitPercent tpResult.1 }

/-- Joint state of the position ledger and the exit manager's per-mint
exit states; the two maps live in different objects
(`PositionManager.positions` and `ExitManager.exitStates`). -/
structure EngineState where
  positions : List (String × Position)
  exitStates : List (String × PositionExitState)
deriving Repr, DecidableEq

/-- Embeds `PositionManager.recordSell` at the level of the combined
state: the method mutates only its own `positions` map; nothing in the
source ever deletes from `ExitManager.exitStates` (the class only reads
and sets it, and it holds no listener on `position_closed`). -/
def engineRecordSell (s : EngineState) (tokenMint : String) (tokenAmount : Int)
    (usdcReceived : ℚ) (signature : String) :
    EngineState × Option (SellResult × PositionEvent) :=
  let r := recordSell s.positions tokenMint tokenAmount usdcReceived signature
  ({ s with positions := r.1 }, r.2)

/-- Embeds `PositionManager.recordBuy` at the level of the combined state:
only the `positions` map changes. -/
def engineRecordBuy (s : EngineState) (tokenMint : String) (tokenAmount : Int)
    (usdcSpent pricePerToken : ℚ) (signature : String) : EngineState :=
  { s with positions := recordBuy s.positions tokenMint tokenAmount usdcSpent pricePerToken signature }

/-- Embeds one exit-manager check of a single position at the level of the
combined state: only `exitStates` changes. -/
def engineCheckPosition (s : EngineState) (strategy : ExitStrategy)
    (position : Position) (currentPrice : ℚ) : EngineState × CheckOutcome :=
  let outcome := checkPositionStep strategy s.exitStates position currentPrice
  ({ s with exitStates := outcome.exitStates }, outcome)

/-! ## Concrete inputs used by the claim theorems -/

/-- Entry payload with vector length 1, zero hash fields, transaction
count 1, and a single trailing byte 0 whose wire-form measurement is 0
(signature count 0). -/
def c4Payload : List Byte :=
  [1, 0, 0, 0, 0, 0, 0, 0] ++ List.replicate 8 0 ++ List.replicate 32 0
    ++ [1, 0, 0, 0, 0, 0, 0, 0] ++ [0]

/-- Buffer of 105 bytes: one signature, legacy message with zero account
keys and one instruction whose data-length field claims 100 bytes that are
not present. -/
def c9Buffer : List Byte :=
  (((List.replicate 105 (0 : Byte)).set 0 1).set 101 1).set 104 100

/-- Minimal well-formed legacy transaction of exactly 102 bytes: one
signature, empty header, zero account keys, blockhash, zero
instructions. -/
def c9WitnessTx : List Byte :=
  [1] ++ List.replicate 64 0 ++ [0, 0, 0] ++ [0] ++ List.replicate 32 0 ++ [0]

/-- Entry payload carrying exactly one entry with the single transaction
`c9WitnessTx`. -/
def c9WitnessPayload : List Byte :=
  [1, 0, 0, 0, 0, 0, 0, 0] ++ List.replicate 8 0 ++ List.replicate 32 0
    ++ [1, 0, 0, 0, 0, 0, 0, 0] ++ c9WitnessTx

/-- Legacy transaction whose single instruction targets the OKX program
with the `swap` discriminator; the only account key is the user. -/
def c7Tx : DecodedTx :=
  { signature := "SIG1"
    slot := 7
    accountKeys := ["U1"]
    transaction := .legacy [⟨OKX_PROGRAM_ID, [], [248, 198, 158, 145, 225, 117, 135, 200]⟩] }

/-- Parsed-transaction metadata for `c7Tx`: the user spends 2.05 USDC
(raw 2 050 000 at 6 decimals) and receives 1000 raw units of a 5-decimal
token. -/
def c7Meta : TxMeta :=
  { preTokenBalances := [⟨"U1", USDC_MINT, 2050000, 6⟩]
    postTokenBalances := [⟨"U1", "TOK1", 1000, 5⟩] }

/-! ## Helper lemmas -/

theorem mapLookup_insert_self {α : Type} (m : List (String × α)) (k : String) (v : α) :
    mapLookup (mapInsert m k v) k = some v := by
  induction m with
  | nil => simp [mapInsert, mapLookup]
  | cons p rest ih =>
    by_cases h : p.1 = k
    · simp [mapInsert, mapLookup, h]
    · simp [mapInsert, mapLookup, h, ih]

theorem mapLookup_erase_self {α : Type} (m : List (String × α)) (k : String) :
    mapLookup (mapErase m k) k = none := by
  induction m with
  | nil => simp [mapErase, mapLookup]
  | cons p rest ih =>
    by_cases h : p.1 = k
    · simpa [mapErase, h] using ih
    · simpa [mapErase, mapLookup, h] using ih


theorem digitsToNat_foldl_init (l : List Nat) (acc : Nat) :
    l.foldl (fun a d => a * 10 + d) acc = acc * 10 ^ l.length + digitsToNat l := by
  induction l generalizing acc with
  | nil => simp [digitsToNat]
  | cons d t ih =>
    have h1 : digitsToNat (d :: t) = t.foldl (fun a d => a * 10 + d) d := by
      simp only [digitsToNat, List.foldl_cons, Nat.zero_mul, Nat.zero_add]
    rw [List.foldl_cons, ih (acc * 10 + d), h1, ih d, List.length_cons]
    ring

theorem digitsToNat_append (a b : List Nat) :
    digitsToNat (a ++ b) = digitsToNat a * 10 ^ b.length + digitsToNat b := by
  unfold digitsToNat
  rw [List.foldl_append]
  exact digitsToNat_foldl_init b (a.foldl (fun acc d => acc * 10 + d) 0)

theorem digitsToNat_replicate_zero (k : Nat) (b : List Nat) :
    digitsToNat (List.replicate k 0 ++ b) = digitsToNat b := by
  rw [digitsToNat_append]
  have hz : digitsToNat (List.replicate k 0) = 0 := by
    induction k with
    | zero => rfl
    | succ n ih =>
      have hrep : List.replicate (n + 1) 0 = 0 :: List.replicate n 0 := rfl
      rw [hrep]
      have := digitsToNat_foldl_init (List.replicate n 0) 0
      simp only [digitsToNat, List.foldl_cons, Nat.zero_mul, Nat.zero_add] at *
      exact ih
  simp [hz]

theorem digitsToNat_decDigitsAux (fuel : Nat) :
    ∀ n : Nat, n ≤ fuel → digitsToNat (decDigitsAux fuel n) = n := by
  induction fuel with
  | zero =>
    intro n hn
    interval_cases n
    rfl
  | succ f ih =>
    intro n hn
    rw [decDigitsAux]
    by_cases h0 : n = 0
    · simp [h0, digitsToNat]
    · rw [if_neg h0, digitsToNat_append]
      have hdiv : n / 10 ≤ f := by
        have := Nat.div_lt_self (Nat.pos_of_ne_zero h0) (by norm_num : 1 < 10)
        omega
      rw [ih (n / 10) hdiv]
      have hsingle : digitsToNat [n % 10] = n % 10 := by
        simp [digitsToNat]
      rw [hsingle]
      simp only [List.length_cons, List.length_nil]
      have := Nat.div_add_mod n 10
      omega

theorem digitsToNat_decDigits (n : Nat) : digitsToNat (decDigits n) = n := by
  unfold decDigits
  by_cases h : n = 0
  · simp [h, digitsToNat]
  · rw [if_neg h]
    exact digitsToNat_decDigitsAux n n le_rfl

theorem decDigits_ne_nil (n : Nat) : decDigits n ≠ [] := by
  unfold decDigits
  by_cases h : n = 0
  · simp [h]
  · rw [if_neg h]
    obtain ⟨m, hm⟩ : ∃ m, n = m + 1 := ⟨n - 1, by omega⟩
    rw [hm, decDigitsAux, if_neg (by omega)]
    simp

/-- The decimal-string placement in `extractTokenBalanceDeltas` is exact
for every positive decimals count: the constructed string denotes
`rawDelta / 10^decimals`. (Complement of the `decimals = 0` defect shown
in the claim theorem for C5.) -/
theorem uiDeltaValue_eq_of_pos (rawDelta : Int) (decimals : Nat)
    (h1 : 1 ≤ decimals) :
    uiDeltaValue rawDelta decimals = (rawDelta : ℚ) / 10 ^ decimals := by
  have hd0 : decimals ≠ 0 := by omega
  unfold uiDeltaValue
  simp only [if_neg hd0]
  set ds := decDigits rawDelta.natAbs with hds
  set padded := List.replicate (decimals + 1 - ds.length) 0 ++ ds with hpadded
  have hdslen : 1 ≤ ds.length := by
    have := decDigits_ne_nil rawDelta.natAbs
    rw [← hds] at this
    have := List.length_pos.mpr this
    omega
  have hplen : decimals + 1 ≤ padded.length := by
    rw [hpadded]
    simp only [List.length_append, List.length_replicate]
    omega
  have hdp_len : (padded.drop (padded.length - decimals)).length = decimals := by
    rw [List.length_drop]
    omega
  have hvalpadded : digitsToNat padded = rawDelta.natAbs := by
    rw [hpadded, digitsToNat_replicate_zero, hds, digitsToNat_decDigits]
  have hvalsplit :
      digitsToNat (padded.take (padded.length - decimals)) * 10 ^ decimals
        + digitsToNat (padded.drop (padded.length - decimals)) = rawDelta.natAbs := by
    have happ := digitsToNat_append (padded.take (padded.length - decimals))
      (padded.drop (padded.length - decimals))
    rw [List.take_append_drop, hdp_len, hvalpadded] at happ
    omega
  have hip : digitsToNat (if padded.take (padded.length - decimals) = [] then [0]
        else padded.take (padded.length - decimals))
      = digitsToNat (padded.take (padded.length - decimals)) := by
    by_cases hempty : padded.take (padded.length - decimals) = []
    · rw [if_pos hempty, hempty]
      rfl
    · rw [if_neg hempty]
  rw [hip, hdp_len]
  have hten : ((10 : ℚ) ^ decimals) ≠ 0 := by positivity
  have hmag :
      (digitsToNat (padded.take (padded.length - decimals)) : ℚ)
        + (digitsToNat (padded.drop (padded.length - decimals)) : ℚ) / 10 ^ decimals
      = (rawDelta.natAbs : ℚ) / 10 ^ decimals := by
    field_simp
    exact_mod_cast hvalsplit
  rw [hmag]
  by_cases hneg : rawDelta < 0
  · rw [if_pos hneg]
    have hcast : ((rawDelta.natAbs : ℚ)) = -(rawDelta : ℚ) := by
      rw [Int.cast_natAbs, abs_of_neg hneg]
      push_cast
      ring
    rw [hcast]
    ring
  · rw [if_neg hneg]
    have hcast : ((rawDelta.natAbs : ℚ)) = (rawDelta : ℚ) := by
      rw [Int.cast_natAbs, abs_of_nonneg (not_lt.mp hneg)]
    rw [hcast]

theorem takeProfitFold_invariant (profitPercent : ℚ) (targets : List TakeProfitTarget) :
    ∀ (st : PositionExitState) (acc : List TakeProfitTarget) (target : ℚ),
    target ∈ st.tpHit → target ∉ acc.map TakeProfitTarget.profitPercent →
    (target ∉ (targets.foldl (takeProfitStep profitPercent) (st, acc)).2.map TakeProfitTarget.profitPercent)
    ∧ (∃ newHits, (targets.foldl (takeProfitStep profitPercent) (st, acc)).1.tpHit = st.tpHit ++ newHits)
    ∧ (targets.foldl (takeProfitStep profitPercent) (st, acc)).1.highWaterMark = st.highWaterMark := by
  induction targets with
  | nil =>
    intro st acc target hmem hacc
    refine ⟨hacc, ⟨[], by simp⟩, rfl⟩
  | cons tp rest ih =>
    intro st acc target hmem hacc
    rw [List.foldl_cons]
    by_cases hcond : profitPercent ≥ tp.profitPercent ∧ ¬ tp.profitPercent ∈ st.tpHit
    · have hstep : takeProfitStep profitPercent (st, acc) tp
          = ({ st with tpHit := st.tpHit ++ [tp.profitPercent] }, acc ++ [tp]) := by
        simp only [takeProfitStep, if_pos hcond]
      rw [hstep]
      have hne : target ≠ tp.profitPercent := by
        intro heq
        exact hcond.2 (heq ▸ hmem)
      have hmem' : target ∈ ({ st with tpHit := st.tpHit ++ [tp.profitPercent] } : PositionExitState).tpHit := by
        simp only [List.mem_append]
        exact Or.inl hmem
      have hacc' : target ∉ (acc ++ [tp]).map TakeProfitTarget.profitPercent := by
        simp only [List.map_append, List.mem_append, List.map_cons, List.map_nil,
          List.mem_cons, List.not_mem_nil, or_false]
        intro hor
        rcases hor with hone | htwo
        · exact hacc hone
        · exact hne htwo
      obtain ⟨hnot, ⟨nh, hnh⟩, hhw⟩ := ih _ _ target hmem' hacc'
      refine ⟨hnot, ⟨[tp.profitPercent] ++ nh, ?_⟩, hhw⟩
      rw [hnh]
      simp
    · have hstep : takeProfitStep profitPercent (st, acc) tp = (st, acc) := by
        simp only [takeProfitStep, if_neg hcond]
      rw [hstep]
      exact ih st acc target hmem hacc

theorem checkTakeProfits_no_retrigger (strategy : ExitStrategy) (profitPercent : ℚ)
    (exitState : PositionExitState) (target : ℚ) (h : target ∈ exitState.tpHit) :
    (target ∉ (checkTakeProfits strategy profitPercent exitState).2.map TakeProfitTarget.profitPercent)
    ∧ (∃ newHits, (checkTakeProfits strategy profitPercent exitState).1.tpHit = exitState.tpHit ++ newHits)
    ∧ (checkTakeProfits strategy profitPercent exitState).1.highWaterMark = exitState.highWaterMark := by
  unfold checkTakeProfits
  exact takeProfitFold_invariant profitPercent strategy.takeProfitTargets exitState [] target h (by simp)

theorem scanTransactions_infix (entriesBytes : List Byte) :
    ∀ (count offset : Nat) (tx : List Byte),
    tx ∈ (scanTransactions entriesBytes count offset).1 →
    ∃ pre post, pre ++ tx ++ post = entriesBytes := by
  intro count
  induction count with
  | zero =>
    intro offset tx htx
    simp [scanTransactions] at htx
  | succ t ih =>
    intro offset tx htx
    rw [scanTransactions] at htx
    by_cases hend : offset ≥ entriesBytes.length
    · rw [if_pos hend] at htx
      simp at htx
    · rw [if_neg hend] at htx
      by_cases hzero : measureTransactionSize (entriesBytes.drop offset) = 0
      · simp only [hzero, if_pos rfl] at htx
        simp at htx
      · simp only [if_neg hzero] at htx
        simp only [List.mem_cons] at htx
        rcases htx with heq | hrest
        · subst heq
          refine ⟨entriesBytes.take offset,
            (entriesBytes.drop offset).drop (measureTransactionSize (entriesBytes.drop offset)), ?_⟩
          rw [List.append_assoc, List.take_append_drop, List.take_append_drop]
        · exact ih _ tx hrest

theorem readEntries_infix (entriesBytes : List Byte) :
    ∀ (count offset : Nat) (entries : List SolanaEntry),
    readEntries entriesBytes count offset = .ok entries →
    ∀ e ∈ entries, ∀ tx ∈ e.transactions, ∃ pre post, pre ++ tx ++ post = entriesBytes := by
  intro count
  induction count with
  | zero =>
    intro offset entries hok e he
    rw [readEntries] at hok
    injection hok with hok
    subst hok
    simp at he
  | succ i ih =>
    intro offset entries hok e he tx htx
    rw [readEntries] at hok
    by_cases hbound : offset + 8 + 32 + 8 > entriesBytes.length
    · rw [if_pos hbound] at hok
      cases hok
    · rw [if_neg hbound] at hok
      dsimp only at hok
      set scanned :=
        (if readU64 entriesBytes (offset + 8 + 32) > 0 then
          scanTransactions entriesBytes (readU64 entriesBytes (offset + 8 + 32)) (offset + 8 + 32 + 8)
        else ([], offset + 8 + 32 + 8)) with hscanned
      rcases hrec : readEntries entriesBytes i scanned.2 with e' | rest
      · rw [hrec] at hok
        cases hok
      · rw [hrec] at hok
        injection hok with hok
        subst hok
        rcases List.mem_cons.mp he with hhead | htail
        · subst hhead
          simp only at htx
          by_cases hpos : readU64 entriesBytes (offset + 8 + 32) > 0
          · rw [hscanned, if_pos hpos] at htx
            exact scanTransactions_infix entriesBytes _ _ tx htx
          · rw [hscanned, if_neg hpos] at htx
            simp at htx
        · exact ih scanned.2 rest hrec e htail tx htx

/-! ## Claim theorems -/

/-- C1: the claim states that after every `record_buy` the stored average
entry price equals `total_cost_usdc` divided by the UI-unit token amount
(`amount_raw / 10^decimals`) and is never the total cost divided by the raw
smallest-unit amount. The code does the opposite: for a 6-decimal token
bought with $2 for 1 000 000 raw units, the opening `recordBuy` stores the
caller's `usdcAmount / Number(tokenAmount)` = 2/1000000 and a second
`recordBuy` stores `newCost / Number(newAmount)` = 4/2000000 — both divide
by the raw amount — while the specified UI-unit value is
`2 / (1000000 / 10^6) = 2`. -/
theorem c1_entry_price_divides_by_raw_amount :
    (mapLookup (recordBuy [] "M" 1000000 2 (copyTradePricePerToken 2 1000000) "s1") "M").map
        Position.entryPrice = some (2 / 1000000)
    ∧ (mapLookup (recordBuy (recordBuy [] "M" 1000000 2 (copyTradePricePerToken 2 1000000) "s1")
          "M" 1000000 2 (copyTradePricePerToken 2 1000000) "s2") "M").map
        Position.entryPrice = some (4 / 2000000)
    ∧ specAvgEntryPrice 2 1000000 6 = 2
    ∧ ((2 : ℚ) / 1000000 ≠ specAvgEntryPrice 2 1000000 6) := by
  refine ⟨?_, ?_, ?_, ?_⟩
  · simp [recordBuy, mapLookup, mapInsert, copyTradePricePerToken]
  · simp [recordBuy, mapLookup, mapInsert, copyTradePricePerToken]
    norm_num
  · unfold specAvgEntryPrice
    norm_num
  · unfold specAvgEntryPrice
    norm_num

/-- C2 counterexample: the claim states that when the metadata fetch fails
the filter returns allow flagged `filter_error`. With the default limits
(min liquidity $50 000), an empty cache and a failed fetch (`none`), the
filter instead rejects the trade for low liquidity: `fetchDexScreenerData`
swallows the failure and returns zeroed metadata, which fails the first
threshold, so the fail-open `catch` in `shouldCopyTrade` is never
reached. -/
theorem c2_fetch_failure_is_rejected_for_low_liquidity :
    shouldCopyTrade ⟨true, 50000, 2, 3600, 10000, 50, []⟩ [] 0 none "MintX" 2
      = ⟨false, some .lowLiquidity⟩
    ∧ (⟨false, some .lowLiquidity⟩ : FilterDecision) ≠ ⟨true, some .filterError⟩ := by
  refine ⟨by decide, by decide⟩

/-- C2 amended: on metadata-fetch failure for an uncached, non-whitelisted
mint, `fetchDexScreenerData` catches the error and returns zeroed data, so
whenever the configured minimum liquidity is positive the filter rejects
the trade with the low-liquidity reason (fail closed); the `filter_error`
fail-open result is unreachable for metadata-fetch failures. -/
theorem c2_fetch_failure_fails_closed (config : FilterConfig)
    (metadataCache : List (String × TokenMetadata)) (now tradeAmountUsdc : ℚ)
    (tokenMint : String)
    (henabled : config.enabled = true)
    (hwl : tokenMint ∉ config.whitelist)
    (hcache : mapLookup metadataCache tokenMint = none)
    (hmin : 0 < config.minLiquidityUsdc) :
    shouldCopyTrade config metadataCache now none tokenMint tradeAmountUsdc
      = ⟨false, some .lowLiquidity⟩ := by
  unfold shouldCopyTrade
  rw [henabled]
  simp only [Bool.true_eq_false, if_false]
  rw [if_neg hwl]
  unfold getTokenMetadata
  rw [hcache]
  unfold fetchTokenMetadata fetchDexScreenerData
  simp only
  rw [if_pos hmin]

/-- C2 witness: the amended theorem applied at the default configuration,
an empty cache and a failed fetch. -/
theorem c2_fetch_failure_fails_closed_witness :
    (⟨true, 50000, 2, 3600, 10000, 50, []⟩ : FilterConfig).enabled = true
    ∧ "MintX" ∉ (⟨true, 50000, 2, 3600, 10000, 50, []⟩ : FilterConfig).whitelist
    ∧ mapLookup ([] : List (String × TokenMetadata)) "MintX" = none
    ∧ (0 : ℚ) < (⟨true, 50000, 2, 3600, 10000, 50, []⟩ : FilterConfig).minLiquidityUsdc
    ∧ shouldCopyTrade ⟨true, 50000, 2, 3600, 10000, 50, []⟩ [] 0 none "MintX" 2
        = ⟨false, some .lowLiquidity⟩ :=
  ⟨rfl, by decide, rfl, by decide,
    c2_fetch_failure_fails_closed _ [] 0 2 "MintX" rfl (by decide) rfl (by decide)⟩

/-- C3: the claim states that the consuming lookup in the buy path removes
a non-expired pre-built entry atomically, so a concurrent second caller
observes `None`. In the code the `txCache.delete` runs only after the
awaited `sendPreBuiltTransaction` resolves, so in the event-loop
interleaving where caller B's lookup runs while caller A's send is
suspended (`get_A, get_B, delete_A, delete_B`), both callers obtain the
same non-expired pre-built entry; under the fully sequential schedule the
second caller does observe `none`, showing the model separates the two
behaviours. This contradicts the code's own `single-use!` comment and the
specification's at-most-one-take invariant. -/
theorem c3_interleaved_buyers_share_prebuilt_entry :
    (runSchedule 10 ⟨some ⟨"sig", 0, 45000⟩, .start, .start⟩
        [.stepA, .stepB, .stepA, .stepB]).callerA = .done (some ⟨"sig", 0, 45000⟩)
    ∧ (runSchedule 10 ⟨some ⟨"sig", 0, 45000⟩, .start, .start⟩
        [.stepA, .stepB, .stepA, .stepB]).callerB = .done (some ⟨"sig", 0, 45000⟩)
    ∧ (runSchedule 10 ⟨some ⟨"sig", 0, 45000⟩, .start, .start⟩
        [.stepA, .stepA, .stepB, .stepB]).callerB = .done none := by
  refine ⟨by decide, by decide, by decide⟩

/-- C4 counterexample: the claim states the entry decoder fails with an
error whenever the per-transaction wire-form scan returns zero length
while `tx_count > 0`. On `c4Payload` the transaction count reads 1 and the
scan of the remaining byte measures 0, yet `deserializeEntries` returns
`ok` with the entry's transaction list silently truncated to empty: the
source `break`s out of the scanning loop instead of throwing. -/
theorem c4_zero_scan_returns_ok_truncated :
    readU64 c4Payload 48 = 1
    ∧ measureTransactionSize (c4Payload.drop 56) = 0
    ∧ deserializeEntries c4Payload
        = .ok [{ numHashes := 0, hash := List.replicate 32 0, transactions := [] }] := by
  refine ⟨by decide, by decide, by rfl⟩

/-- C4 amended: when the wire-form scan of the first transaction returns
zero length while the transaction count is positive, the decoder does not
raise; it returns the entry with an empty (truncated) transaction list.
The only error path of the decoder is the bounds check on reading the
8-byte transaction-count prefix. -/
theorem c4_zero_scan_truncates_without_error
    (payload rest : List Byte)
    (hlen : payload.length = 56 + rest.length)
    (hone : readU64 payload 0 = 1)
    (hcnt : 1 ≤ readU64 payload 48)
    (hdrop : payload.drop 56 = rest)
    (hmeasure : measureTransactionSize rest = 0) :
    ∃ e, deserializeEntries payload = .ok [e] ∧ e.transactions = [] := by
  have hscan : scanTransactions payload (readU64 payload 48) 56 = ([], 56) := by
    obtain ⟨m, hm⟩ : ∃ m, readU64 payload 48 = m + 1 := ⟨readU64 payload 48 - 1, by omega⟩
    rw [hm]
    by_cases hend : 56 ≥ payload.length
    · simp only [scanTransactions]
      rw [if_pos hend]
    · simp only [scanTransactions, hdrop, hmeasure]
      rw [if_neg hend]
      simp
  unfold deserializeEntries
  rw [hone]
  simp only [readEntries]
  norm_num
  rw [if_neg (show ¬ (56 > payload.length) by omega)]
  rw [if_pos (show readU64 payload 48 > 0 by omega), hscan]
  exact ⟨_, rfl, rfl⟩

/-- C4 witness: the amended theorem applied at `c4Payload` with remaining
bytes `[0]`. -/
theorem c4_zero_scan_truncates_without_error_witness :
    c4Payload.length = 56 + ([0] : List Byte).length
    ∧ readU64 c4Payload 0 = 1
    ∧ 1 ≤ readU64 c4Payload 48
    ∧ c4Payload.drop 56 = [0]
    ∧ measureTransactionSize [0] = 0
    ∧ ∃ e, deserializeEntries c4Payload = .ok [e] ∧ e.transactions = [] :=
  ⟨by decide, by decide, by decide, by decide, by decide,
    c4_zero_scan_truncates_without_error c4Payload [0]
      (by decide) (by decide) (by decide) (by decide) (by decide)⟩

/-- C5: the claim states the reconstructor's UI delta equals
`raw_delta / 10^decimals` for every decimals value including
`decimals = 0`, the decimal point being placed exactly `decimals` digits
from the right. For `decimals = 0` the code's `padded.slice(0, -decimals)`
is `slice(0, 0)` (JavaScript `-0` is `0`), so the whole number ends up
behind the decimal point: a post balance of 5 raw units at 0 decimals
yields UI delta 1/2 instead of 5 = 5 / 10^0. (For every positive decimals
count the placement is exact — see `uiDeltaValue_eq_of_pos`.) -/
theorem c5_decimals_zero_misplaces_decimal_point :
    uiDeltaValue 5 0 = 1 / 2
    ∧ extractTokenBalanceDeltas ⟨[], [⟨"U1", "TOK1", 5, 0⟩]⟩ "U1"
        = [⟨"TOK1", 1 / 2, 5, 0⟩]
    ∧ (((5 : Int) : ℚ) / 10 ^ (0 : Nat) = 5)
    ∧ ((1 : ℚ) / 2 ≠ 5) := by
  have huidelta : uiDeltaValue 5 0 = 1 / 2 := by
    norm_num [uiDeltaValue, decDigits, decDigitsAux, digitsToNat]
  have habs : |(1 : ℚ) / 2| = 1 / 2 := abs_of_pos (by norm_num)
  refine ⟨huidelta, ?_, by norm_num, by norm_num⟩
  simp only [extractTokenBalanceDeltas, applyPreBalances, applyPostBalances,
    mapInsert, mapLookup, List.map]
  norm_num [huidelta, habs]

/-- C6: for every `canTrade` buy call, the result is a rejection exactly
when one of the four specified conditions holds — balance minus amount
below the reserve, per-position cost over the cap, total exposure over the
cap, or a new mint at the open-position limit — and the reserve condition
is checked first: after two $2 buys on a mint, with `maxPositionSizeUsdc
= 4` and `minUsdcReserve = 10`, a $2 buy at balance 8 is rejected with the
below-reserve reason even though the position-size cap is also
exceeded. -/
theorem c6_canTrade_buy_reject_conditions :
    (∀ (positions : List (String × Position)) (limits : RiskLimits) (tokenMint : String)
        (amountUsdc currentUsdcBalance : ℚ),
      ((canTrade positions limits tokenMint .buy amountUsdc currentUsdcBalance).allowed = false
        ↔ (currentUsdcBalance - amountUsdc < limits.minUsdcReserve
            ∨ (match mapLookup positions tokenMint with
                | some p => p.totalCostUsdc
                | none => 0) + amountUsdc > limits.maxPositionSizeUsdc
            ∨ getTotalExposure positions + amountUsdc > limits.maxTotalExposureUsdc
            ∨ (mapLookup positions tokenMint = none
                ∧ positions.length ≥ limits.maxOpenPositions))))
    ∧ canTrade
        (recordBuy (recordBuy [] "M" 100 2 (copyTradePricePerToken 2 100) "s1")
          "M" 100 2 (copyTradePricePerToken 2 100) "s2")
        ⟨4, 200, 10, 10⟩ "M" .buy 2 8
      = ⟨false, some .belowReserve⟩ := by
  constructor
  · intro positions limits tokenMint amountUsdc currentUsdcBalance
    unfold canTrade
    dsimp only
    split_ifs with h1 h2 h3 h4
    · exact iff_of_true rfl (Or.inl h1)
    · exact iff_of_true rfl (Or.inr (Or.inl h2))
    · exact iff_of_true rfl (Or.inr (Or.inr (Or.inl h3)))
    · exact iff_of_true rfl (Or.inr (Or.inr (Or.inr h4)))
    · refine iff_of_false (by simp) ?_
      rintro (h | h | h | h)
      · exact h1 h
      · exact h2 h
      · exact h3 h
      · exact h4 h
  · simp only [canTrade, recordBuy, mapLookup, mapInsert, getTotalExposure]
    norm_num

/-- C7 counterexample: the claim states the pipeline never emits a trade
when no watched address occurs in the resolved keys — in particular
whenever the watched set is empty. With an empty tracked set (so no
account key is watched), the analyzer does not short-circuit: the guard
only returns early when `trackedUsers.size > 0`, so it falls back to the
first account key as the user and emits a detected trade for `c7Tx`. -/
theorem c7_empty_watchlist_still_emits :
    findTrackedUserFromKeys c7Tx.accountKeys [] = none
    ∧ analyzeTransaction [] c7Tx [] (some c7Meta)
        = some ⟨"SIG1", 7, .buy, "TOK1", 41 / 20, 1000, "U1", .okx⟩ := by
  have husdc : uiDeltaValue (-2050000) 6 = -(41 / 20) := by
    rw [uiDeltaValue_eq_of_pos (-2050000) 6 (by norm_num)]
    norm_num
  have htok : uiDeltaValue 1000 5 = 1 / 100 := by
    rw [uiDeltaValue_eq_of_pos 1000 5 (by norm_num)]
    norm_num
  have habs1 : |(-(41 / 20) : ℚ)| = 41 / 20 := by
    rw [abs_neg, abs_of_pos]
    norm_num
  have habs2 : |(1 / 100 : ℚ)| = 1 / 100 :=
    abs_of_pos (by norm_num)
  have hdeltas : extractTokenBalanceDeltas c7Meta "U1"
      = [⟨USDC_MINT, -(41 / 20), -2050000, 6⟩, ⟨"TOK1", 1 / 100, 1000, 5⟩] := by
    simp [c7Meta, extractTokenBalanceDeltas, applyPreBalances, applyPostBalances,
      mapInsert, mapLookup, USDC_MINT, husdc, htok, habs1, habs2]
    norm_num [habs2]
  have hparse : parseTradeDetailsFromBalanceDeltas c7Tx .okx "U1" (some c7Meta)
      = some ⟨"SIG1", 7, .buy, "TOK1", 41 / 20, 1000, "U1", .okx⟩ := by
    unfold parseTradeDetailsFromBalanceDeltas
    dsimp only
    rw [hdeltas]
    simp [List.find?, USDC_MINT, c7Tx, habs1]
    norm_num
  have hagg : identifyAggregatorFromInstructions
      (getInstructions c7Tx.transaction c7Tx.accountKeys) = .okx := by
    decide
  refine ⟨rfl, ?_⟩
  unfold analyzeTransaction
  rw [if_neg (by decide : ¬ VOTE_PROGRAM_ID ∈ c7Tx.accountKeys)]
  dsimp only
  rw [if_neg (by decide : c7Tx.isVersioned ≠ true)]
  rw [if_neg (by decide :
    ¬ (findTrackedUserFromKeys c7Tx.accountKeys [] = none ∧ ([] : List String).length > 0))]
  unfold parseTradeDetails
  dsimp only
  rw [if_neg (lt_irrefl c7Tx.accountKeys.length)]
  rw [hagg]
  rw [if_neg (by decide : ¬ (Aggregator.okx = Aggregator.unknown))]
  exact hparse

/-- C7 amended: the no-emission guarantee holds exactly when the watched
set is non-empty: if no resolved account key belongs to a non-empty
tracked set, `analyzeTransaction` emits nothing; with an empty tracked set
the analyzer processes every transaction using its first account key as
the user (see the counterexample). -/
theorem c7_no_emit_when_no_watched_key (trackedUsers : List String)
    (tx : DecodedTx) (resolvedKeys : List String) (rpcMeta : Option TxMeta)
    (hne : trackedUsers ≠ [])
    (hnomatch : ∀ k ∈ (if tx.isVersioned then resolvedKeys else tx.accountKeys),
      k ∉ trackedUsers) :
    analyzeTransaction trackedUsers tx resolvedKeys rpcMeta = none := by
  unfold analyzeTransaction
  by_cases hvote : VOTE_PROGRAM_ID ∈ tx.accountKeys
  · rw [if_pos hvote]
  · rw [if_neg hvote]
    dsimp only
    have hfind : findTrackedUserFromKeys
        (if tx.isVersioned then resolvedKeys else tx.accountKeys) trackedUsers = none := by
      unfold findTrackedUserFromKeys
      rw [List.find?_eq_none]
      intro k hk
      simpa using hnomatch k hk
    rw [if_pos ⟨hfind, List.length_pos.mpr hne⟩]

/-- C7 witness: the amended theorem applied to `c7Tx` with the non-empty
watched set `["W"]`, which matches no account key. -/
theorem c7_no_emit_when_no_watched_key_witness :
    (["W"] : List String) ≠ []
    ∧ (∀ k ∈ (if c7Tx.isVersioned then ([] : List String) else c7Tx.accountKeys),
        k ∉ (["W"] : List String))
    ∧ analyzeTransaction ["W"] c7Tx [] (some c7Meta) = none :=
  ⟨by decide, by decide,
    c7_no_emit_when_no_watched_key ["W"] c7Tx [] (some c7Meta) (by decide) (by decide)⟩

/-- C8: starting with no position for the mint, a `recordBuy(x, raw, cost)`
immediately followed by `recordSell(x, raw, cost)` realizes exactly zero
P&L and removes the position (the `position_closed` outcome), for every
raw amount > 0 and cost > 0. -/
theorem c8_buy_then_sell_closes_with_zero_pnl
    (positions : List (String × Position)) (tokenMint : String) (raw : Int)
    (cost pricePerToken : ℚ) (sig1 sig2 : String)
    (hnone : mapLookup positions tokenMint = none)
    (hraw : 0 < raw) (hcost : 0 < cost) :
    (recordSell (recordBuy positions tokenMint raw cost pricePerToken sig1)
        tokenMint raw cost sig2).2
      = some (⟨0, 0⟩, .positionClosed)
    ∧ mapLookup (recordSell (recordBuy positions tokenMint raw cost pricePerToken sig1)
        tokenMint raw cost sig2).1 tokenMint = none := by
  have hbuy : recordBuy positions tokenMint raw cost pricePerToken sig1
      = mapInsert positions tokenMint ⟨tokenMint, raw, pricePerToken, cost, [sig1], 1, 0⟩ := by
    unfold recordBuy
    rw [hnone]
  have hlook : mapLookup (mapInsert positions tokenMint
        ⟨tokenMint, raw, pricePerToken, cost, [sig1], 1, 0⟩) tokenMint
      = some ⟨tokenMint, raw, pricePerToken, cost, [sig1], 1, 0⟩ :=
    mapLookup_insert_self _ _ _
  have hsp : (raw : ℚ) / (raw : ℚ) = 1 := div_self (by exact_mod_cast hraw.ne')
  rw [hbuy]
  unfold recordSell
  rw [hlook]
  dsimp only
  rw [if_neg (by omega : ¬ (raw - raw < 0)), if_pos (by omega : raw - raw = 0)]
  constructor
  · simp [hsp]
  · exact mapLookup_erase_self _ _

/-- C8 witness: buy of 5 raw units for $2, then sell of the same amount
for the same proceeds, starting from an empty ledger. -/
theorem c8_buy_then_sell_closes_with_zero_pnl_witness :
    mapLookup ([] : List (String × Position)) "M" = none
    ∧ (0 : Int) < 5
    ∧ (0 : ℚ) < 2
    ∧ ((recordSell (recordBuy [] "M" 5 2 1 "s1") "M" 5 2 "s2").2
        = some (⟨0, 0⟩, .positionClosed)
      ∧ mapLookup (recordSell (recordBuy [] "M" 5 2 1 "s1") "M" 5 2 "s2").1 "M" = none) :=
  ⟨rfl, by decide, by norm_num,
    c8_buy_then_sell_closes_with_zero_pnl [] "M" 5 2 1 "s1" "s2" rfl (by decide) (by norm_num)⟩

/-- C9 counterexample: the claim states the measured size is never greater
than the buffer's length. On the 105-byte `c9Buffer` — one signature, a
legacy message with zero keys and one instruction whose compact-u16 data
length claims 100 absent bytes — the measurement returns 205. -/
theorem c9_measured_size_exceeds_buffer :
    measureTransactionSize c9Buffer = 205
    ∧ c9Buffer.length = 105
    ∧ c9Buffer.length < measureTransactionSize c9Buffer := by
  refine ⟨by decide, by decide, by decide⟩

/-- C9 amended: the measurement itself performs only bounds-guarded byte
reads but its result can exceed the buffer's length (see the
counterexample); the entry decoder slices with JavaScript clamping, so
every transaction blob it emits is a contiguous sub-sequence of the
payload — slicing never reaches out of bounds even when the measured size
overshoots. -/
theorem c9_sliced_transactions_stay_in_bounds
    (payload : List Byte) (entries : List SolanaEntry)
    (hok : deserializeEntries payload = .ok entries) :
    ∀ e ∈ entries, ∀ tx ∈ e.transactions, ∃ pre post, pre ++ tx ++ post = payload := by
  unfold deserializeEntries at hok
  exact readEntries_infix payload _ _ entries hok

set_option maxRecDepth 40000 in
/-- C9 witness: the amended theorem applied to `c9WitnessPayload`, whose
single entry carries the single 102-byte transaction `c9WitnessTx`. -/
theorem c9_sliced_transactions_stay_in_bounds_witness :
    deserializeEntries c9WitnessPayload
      = .ok [{ numHashes := 0, hash := List.replicate 32 0, transactions := [c9WitnessTx] }]
    ∧ ∀ e ∈ [({ numHashes := 0, hash := List.replicate 32 0, transactions := [c9WitnessTx] } : SolanaEntry)],
        ∀ tx ∈ e.transactions, ∃ pre post, pre ++ tx ++ post = c9WitnessPayload :=
  ⟨by rfl,
    c9_sliced_transactions_stay_in_bounds c9WitnessPayload
      [{ numHashes := 0, hash := List.replicate 32 0, transactions := [c9WitnessTx] }] (by rfl)⟩

/-- C10: the exit manager's per-mint exit state survives the closing of
the position — `recordSell` (and `recordBuy`) touch only the position
ledger, never `exitStates` — so when a new position is later opened in the
same mint, any take-profit target already in the old `tpHit` set never
triggers again (it is absent from the step's triggered targets), and the
old high-water mark carries over: the state used and stored by the next
check is the old one with its high-water mark only raised to the current
price. -/
theorem c10_exit_state_survives_position_close
    (s : EngineState) (strategy : ExitStrategy) (tokenMint : String)
    (raw : Int) (usdcReceived : ℚ) (sig : String)
    (es : PositionExitState) (target : ℚ)
    (newPosition : Position) (currentPrice : ℚ)
    (hes : mapLookup s.exitStates tokenMint = some es)
    (hhit : target ∈ es.tpHit)
    (hmint : newPosition.tokenMint = tokenMint) :
    ((engineRecordSell s tokenMint raw usdcReceived sig).1.exitStates = s.exitStates)
    ∧ (∀ amt cost price sig2,
        (engineRecordBuy s tokenMint amt cost price sig2).exitStates = s.exitStates)
    ∧ (target ∉ (engineCheckPosition s strategy newPosition currentPrice).2.tpTriggers.map
        TakeProfitTarget.profitPercent)
    ∧ (∃ newHits, mapLookup (engineCheckPosition s strategy newPosition currentPrice).1.exitStates
        tokenMint
        = some ⟨es.tpHit ++ newHits, max es.highWaterMark currentPrice⟩) := by
  have hsell : (engineRecordSell s tokenMint raw usdcReceived sig).1.exitStates = s.exitStates := by
    unfold engineRecordSell
    rfl
  have hbuy : ∀ amt cost price sig2,
      (engineRecordBuy s tokenMint amt cost price sig2).exitStates = s.exitStates := by
    intro amt cost price sig2
    unfold engineRecordBuy
    rfl
  have hstep : checkPositionStep strategy s.exitStates newPosition currentPrice
      = checkPositionStep strategy s.exitStates newPosition currentPrice := rfl
  unfold engineCheckPosition checkPositionStep
  rw [hmint, hes]
  dsimp only
  set exitState1 := if currentPrice > es.highWaterMark
    then { es with highWaterMark := currentPrice } else es with hex1
  have hex1hit : target ∈ exitState1.tpHit := by
    rw [hex1]
    by_cases hgt : currentPrice > es.highWaterMark
    · rw [if_pos hgt]
      exact hhit
    · rw [if_neg hgt]
      exact hhit
  have hex1hw : exitState1.highWaterMark = max es.highWaterMark currentPrice := by
    rw [hex1]
    by_cases hgt : currentPrice > es.highWaterMark
    · rw [if_pos hgt]
      exact (max_eq_right (le_of_lt hgt)).symm
    · rw [if_neg hgt]
      exact (max_eq_left (not_lt.mp hgt)).symm
  have hex1tp : exitState1.tpHit = es.tpHit := by
    rw [hex1]
    by_cases hgt : currentPrice > es.highWaterMark
    · rw [if_pos hgt]
    · rw [if_neg hgt]
  obtain ⟨hnot, ⟨newHits, hnh⟩, hhw⟩ := checkTakeProfits_no_retrigger strategy
    ((currentPrice / newPosition.entryPrice - 1) * 100) exitState1 target hex1hit
  refine ⟨hsell, hbuy, hnot, ⟨newHits, ?_⟩⟩
  rw [mapLookup_insert_self]
  congr 1
  have : (checkTakeProfits strategy ((currentPrice / newPosition.entryPrice - 1) * 100)
      exitState1).1 = ⟨(checkTakeProfits strategy ((currentPrice / newPosition.entryPrice - 1) * 100)
      exitState1).1.tpHit, (checkTakeProfits strategy ((currentPrice / newPosition.entryPrice - 1) * 100)
      exitState1).1.highWaterMark⟩ := rfl
  rw [this, hnh, hhw, hex1tp, hex1hw]

/-- C10 witness: a closed position for mint "M" whose exit state already
has the 50 % take-profit in `tpHit` and high-water mark 3; a reopened
position at entry price 1 checked at price 2 (profit 100 %) triggers only
the 100 % rung, never the stale 50 % one, and keeps high-water mark 3. -/
theorem c10_exit_state_survives_position_close_witness :
    mapLookup ([("M", (⟨[50], 3⟩ : PositionExitState))]) "M" = some ⟨[50], 3⟩
    ∧ (50 : ℚ) ∈ ([50] : List ℚ)
    ∧ (⟨"M", 1000, 1, 2, ["s"], 1, 0⟩ : Position).tokenMint = "M"
    ∧ (((engineRecordSell ⟨[], [("M", ⟨[50], 3⟩)]⟩ "M" 5 2 "s").1.exitStates
          = (⟨[], [("M", ⟨[50], 3⟩)]⟩ : EngineState).exitStates)
      ∧ (∀ amt cost price sig2,
          (engineRecordBuy ⟨[], [("M", ⟨[50], 3⟩)]⟩ "M" amt cost price sig2).exitStates
            = (⟨[], [("M", ⟨[50], 3⟩)]⟩ : EngineState).exitStates)
      ∧ ((50 : ℚ) ∉ (engineCheckPosition ⟨[], [("M", ⟨[50], 3⟩)]⟩
          ⟨[⟨50, 25⟩, ⟨100, 50⟩], -30, some 20, some 50⟩
          ⟨"M", 1000, 1, 2, ["s"], 1, 0⟩ 2).2.tpTriggers.map TakeProfitTarget.profitPercent)
      ∧ (∃ newHits, mapLookup (engineCheckPosition ⟨[], [("M", ⟨[50], 3⟩)]⟩
          ⟨[⟨50, 25⟩, ⟨100, 50⟩], -30, some 20, some 50⟩
          ⟨"M", 1000, 1, 2, ["s"], 1, 0⟩ 2).1.exitStates "M"
          = some ⟨[50] ++ newHits, max 3 2⟩)) :=
  ⟨rfl, by decide, rfl,
    c10_exit_state_survives_position_close ⟨[], [("M", ⟨[50], 3⟩)]⟩
      ⟨[⟨50, 25⟩, ⟨100, 50⟩], -30, some 20, some 50⟩ "M" 5 2 "s" ⟨[50], 3⟩ 50
      ⟨"M", 1000, 1, 2, ["s"], 1, 0⟩ 2 rfl (by decide) rfl⟩
